import Mathlib

/-!
Verification development for the solar-system map generator
(`Map Testing/solar_system_tripled_rockies.py`).

The script computes, in pure arithmetic, pixel radii and center positions for
nine bodies and their moons, draws filled disks and annuli into a
16384 x 8192 integer canvas through numpy slice assignments, projects
equirectangular textures onto discs, and scatters an asteroid belt by
rejection sampling.  The embedding below mirrors those computations:

* Python float arithmetic on the (exactly representable or
  far-from-rounding-boundary) quantities of the script is modelled by exact
  fraction arithmetic on an unnormalized pair of integers (`Frac`, with
  positive denominators throughout); `round` is Python's
  round-half-to-even (`pyround`), `int(...)` on a nonnegative float is
  truncation (`Frac.trunc`).
* The numpy canvas is a total function `ℤ → ℤ → ℤ`; slice-assignment
  semantics (including the shape-mismatch `IndexError` that numpy raises
  when a boolean mask does not match the sliced array) is modelled by
  `Option`-returning drawing primitives, `none` standing for the raised
  error.
* `random.randint` is modelled by reading an externally supplied stream of
  integers (`List ℤ`), reduced into the requested interval; the claims
  quantify over all streams where they speak about every run.
* The real-valued texture projection (`math.sqrt`, `math.asin`,
  `math.atan2`) is embedded over `ℝ`; `math.atan2` is `pyAtan2` below, and
  Python `int()` truncation on reals is `pytrunc`.
-/

namespace SolarMap

/-- Unnormalized fraction `num / den`.  All fractions constructed in this file
have positive denominators; the comparison and floor operations below assume
that invariant (they mirror Python float arithmetic on the script's exact
rational values). -/
structure Frac where
  num : ℤ
  den : ℤ
deriving DecidableEq, Repr

instance : Mul Frac := ⟨fun x y => ⟨x.num * y.num, x.den * y.den⟩⟩

instance : Add Frac := ⟨fun x y => ⟨x.num * y.den + y.num * x.den, x.den * y.den⟩⟩

instance : Sub Frac := ⟨fun x y => ⟨x.num * y.den - y.num * x.den, x.den * y.den⟩⟩

instance : Div Frac := ⟨fun x y => ⟨x.num * y.den, x.den * y.num⟩⟩

/-- Embed an integer as a fraction. -/
def fz (n : ℤ) : Frac := ⟨n, 1⟩

/-- Floor of a fraction (assumes a positive denominator). -/
def Frac.floor (x : Frac) : ℤ := Int.fdiv x.num x.den

/-- Strict comparison of fractions (assumes positive denominators). -/
def Frac.blt (x y : Frac) : Bool := x.num * y.den < y.num * x.den

/-- Python `min` of two fractions. -/
def Frac.fmin (x y : Frac) : Frac := if y.blt x then y else x

/-- Python `max` of two fractions. -/
def Frac.fmax (x y : Frac) : Frac := if x.blt y then y else x

/-- Python `int(...)` applied to a float: truncation toward zero. -/
def Frac.trunc (x : Frac) : ℤ :=
  if 0 ≤ x.num then x.floor else -(Frac.floor ⟨-x.num, x.den⟩)

/-- Python 3 `round` to an integer: round half to even. -/
def pyround (x : Frac) : ℤ :=
  let f := x.floor
  let r := x.num - f * x.den
  if 2 * r < x.den then f
  else if x.den < 2 * r then f + 1
  else if f % 2 = 0 then f else f + 1

/-- The nine bodies of `PLANET_KM`. -/
inductive Planet where
  | Mercury | Venus | Earth | Mars | Jupiter | Saturn | Uranus | Neptune | Pluto
deriving DecidableEq, Fintype, Repr

/-- Physical radii in km (`PLANET_KM`). -/
def PLANET_KM (p : Planet) : ℤ :=
  match p with
  | .Mercury => 2440
  | .Venus => 6052
  | .Earth => 6371
  | .Mars => 3390
  | .Jupiter => 69911
  | .Saturn => 58232
  | .Uranus => 25362
  | .Neptune => 24622
  | .Pluto => 1188

/-- The gas-giant category (`GAS`). -/
def GAS : List Planet := [.Jupiter, .Saturn, .Uranus, .Neptune]

/-- The rocky (tripling-override) category (`ROCKY`). -/
def ROCKY : List Planet := [.Mercury, .Venus, .Earth, .Mars, .Pluto]

/-- Canvas width in pixels (`WIDTH`). -/
def WIDTH : ℤ := 16384

/-- Canvas height in pixels (`HEIGHT`). -/
def HEIGHT : ℤ := 8192

/-- Target pixel radius of the reference body (`EARTH_PX`). -/
def EARTH_PX : ℤ := 150

/-- Linear scale factor `scale = EARTH_PX / PLANET_KM["Earth"]`. -/
def scale : Frac := fz EARTH_PX / fz (PLANET_KM .Earth)

/-- Raw (unshrunk, unrounded) pixel radius `raw_px[p] = PLANET_KM[p] * scale`. -/
def raw_px (p : Planet) : Frac := fz (PLANET_KM p) * scale

/-- Gas-giant shrink factor `shrink = min(1.0, (3*EARTH_PX) / raw_px["Jupiter"])`. -/
def shrink : Frac := Frac.fmin (fz 1) (fz (3 * EARTH_PX) / raw_px .Jupiter)

/-- Pre-override pixel radius table `radius_base`; the script builds the dict
by `int(round(raw_px[p] * (shrink if p in GAS else 1)))` and then overwrites
the entry for Earth with `EARTH_PX`. -/
def radius_base (p : Planet) : ℤ :=
  if p = .Earth then EARTH_PX
  else pyround (raw_px p * (if p ∈ GAS then shrink else fz 1))

/-- Final pixel radius table `radius_px`: a copy of `radius_base` with every
rocky planet's entry tripled. -/
def radius_px (p : Planet) : ℤ :=
  if p ∈ ROCKY then radius_base p * 3 else radius_base p

/-- Ring geometry constant `LOW_OFF`. -/
def LOW_OFF : ℤ := 24

/-- Ring geometry constant `LOW_THICK`. -/
def LOW_THICK : ℤ := 6

/-- Ring geometry constant `HIGH_GAP`. -/
def HIGH_GAP : ℤ := 30

/-- Ring geometry constant `HIGH_THICK`. -/
def HIGH_THICK : ℤ := 6

/-- Moon ring offset constant `MOON_RING_OFF`. -/
def MOON_RING_OFF : ℤ := 6

/-- Moon ring thickness constant `MOON_RING_THICK`. -/
def MOON_RING_THICK : ℤ := 4

/-- Helper `low_outer_from_r(r) = r + LOW_OFF + LOW_THICK`. -/
def low_outer_from_r (r : ℤ) : ℤ := r + LOW_OFF + LOW_THICK

/-- Post-override outer radius of the low ring (`ring_low_outer`); for Saturn
the script stores `int(round(radius_px * 1.5))`. -/
def ring_low_outer (p : Planet) : ℤ :=
  if p = .Saturn then pyround (fz (radius_px p) * ⟨3, 2⟩)
  else low_outer_from_r (radius_px p)

/-- Post-override inner radius of the high ring (`ring_high_inner`).  The
script stores `None` for Saturn; this table is only ever read at planets
other than Saturn, where it is `ring_low_outer + HIGH_GAP`. -/
def ring_high_inner (p : Planet) : ℤ := ring_low_outer p + HIGH_GAP

/-- Post-override outer radius of the high ring (`ring_high_outer`), read only
at non-Saturn planets. -/
def ring_high_outer (p : Planet) : ℤ := ring_high_inner p + HIGH_THICK

/-- Pre-override low-ring outer radius (`ring_low_outer_base`). -/
def ring_low_outer_base (p : Planet) : ℤ :=
  if p = .Saturn then pyround (fz (radius_base p) * ⟨3, 2⟩)
  else low_outer_from_r (radius_base p)

/-- Pre-override high-ring inner radius (`ring_high_inner_base`), read only at
non-Saturn planets. -/
def ring_high_inner_base (p : Planet) : ℤ := ring_low_outer_base p + HIGH_GAP

/-- Pre-override high-ring outer radius (`ring_high_outer_base`), read only at
non-Saturn planets. -/
def ring_high_outer_base (p : Planet) : ℤ := ring_high_inner_base p + HIGH_THICK

/-- Margin constant `LEFT_MARGIN`. -/
def LEFT_MARGIN : ℤ := 100

/-- Margin constant `RIGHT_MARGIN`. -/
def RIGHT_MARGIN : ℤ := 100

/-- Clearance constant `MIN_GAP_MARS_JUP`. -/
def MIN_GAP_MARS_JUP : ℤ := 1100

/-- Manual shift `SHIFT_MERCURY`. -/
def SHIFT_MERCURY : ℤ := 250

/-- Manual shift `SHIFT_JUPITER`. -/
def SHIFT_JUPITER : ℤ := 1500

/-- Belt bound shift `BELT_LEFT_SHIFT`. -/
def BELT_LEFT_SHIFT : ℤ := 300

/-- Belt bound shift `BELT_RIGHT_SHIFT`. -/
def BELT_RIGHT_SHIFT : ℤ := 800

/-- Right end of the inner-planet span, `inner_right = int(WIDTH * 0.30)`. -/
def inner_right : ℤ := Frac.trunc (fz WIDTH * ⟨3, 10⟩)

/-- Base center of Mercury, `LEFT_MARGIN + radius_base["Mercury"]`. -/
def cxb_Mercury : ℤ := LEFT_MARGIN + radius_base .Mercury

/-- Spacing of the four inner planets,
`(inner_right - centre_x_base["Mercury"] - radius_base["Mars"]) / (len(INNER)-1)`. -/
def inner_spacing : Frac :=
  (fz inner_right - fz cxb_Mercury - fz (radius_base .Mars)) / fz 3

/-- Base center of Venus (`centre_x_base["Mercury"] + 1*inner_spacing`, rounded). -/
def cxb_Venus : ℤ := pyround (fz cxb_Mercury + fz 1 * inner_spacing)

/-- Base center of Earth (`centre_x_base["Mercury"] + 2*inner_spacing`, rounded). -/
def cxb_Earth : ℤ := pyround (fz cxb_Mercury + fz 2 * inner_spacing)

/-- Base center of Mars (`centre_x_base["Mercury"] + 3*inner_spacing`, rounded). -/
def cxb_Mars : ℤ := pyround (fz cxb_Mercury + fz 3 * inner_spacing)

/-- Base center of Jupiter. -/
def cxb_Jupiter : ℤ :=
  cxb_Mars + ring_high_outer_base .Mars + MIN_GAP_MARS_JUP +
    ring_low_outer_base .Jupiter + 600

/-- Base center of Pluto, anchored to the right margin. -/
def cxb_Pluto : ℤ := WIDTH - RIGHT_MARGIN - radius_base .Pluto

/-- Distance `dist_jp_pl = centre_x_base["Pluto"] - centre_x_base["Jupiter"]`. -/
def dist_jp_pl : ℤ := cxb_Pluto - cxb_Jupiter

/-- Base center of Neptune, `int(round(centre_x_base["Jupiter"] + 0.88*dist_jp_pl))`. -/
def cxb_Neptune : ℤ := pyround (fz cxb_Jupiter + ⟨88, 100⟩ * fz dist_jp_pl)

/-- Base center of Saturn; Python `//` is floor division. -/
def cxb_Saturn : ℤ := Int.fdiv (cxb_Jupiter + cxb_Neptune) 2 - 100

/-- Base center of Uranus. -/
def cxb_Uranus : ℤ := Int.fdiv (cxb_Saturn + cxb_Neptune) 2

/-- Base x-center table `centre_x_base`. -/
def centre_x_base (p : Planet) : ℤ :=
  match p with
  | .Mercury => cxb_Mercury
  | .Venus => cxb_Venus
  | .Earth => cxb_Earth
  | .Mars => cxb_Mars
  | .Jupiter => cxb_Jupiter
  | .Saturn => cxb_Saturn
  | .Uranus => cxb_Uranus
  | .Neptune => cxb_Neptune
  | .Pluto => cxb_Pluto

/-- Final x-center table `centre_x`: the base table with the manual shifts of
Mercury and Jupiter applied. -/
def centre_x (p : Planet) : ℤ :=
  match p with
  | .Mercury => centre_x_base .Mercury + SHIFT_MERCURY
  | .Jupiter => centre_x_base .Jupiter + SHIFT_JUPITER
  | q => centre_x_base q

/-- Common y-center `centre_y = HEIGHT // 2`. -/
def centre_y : ℤ := Int.fdiv HEIGHT 2

/-- One moon record: name, physical radius (km), semi-major axis (km). -/
abbrev MoonDef := String × Frac × Frac

/-- Moon table `MOON_DATA` (planets absent from the Python dict get `[]`). -/
def MOON_DATA (p : Planet) : List MoonDef :=
  match p with
  | .Earth => [("Moon", fz 1737, fz 384400)]
  | .Mars => [("Phobos", ⟨1127, 100⟩, fz 9377), ("Deimos", ⟨62, 10⟩, fz 23460)]
  | .Jupiter =>
      [("Io", fz 1821, fz 421700), ("Europa", fz 1560, fz 671034),
       ("Ganymede", fz 2634, fz 1070412), ("Callisto", fz 2410, fz 1882709)]
  | .Saturn =>
      [("Titan", fz 2575, fz 1221870), ("Rhea", fz 764, fz 527108),
       ("Iapetus", fz 735, fz 3560820), ("Dione", fz 561, fz 377415)]
  | .Uranus =>
      [("Miranda", fz 235, fz 129900), ("Ariel", fz 578, fz 191020),
       ("Umbriel", fz 584, fz 266000), ("Titania", fz 788, fz 435910),
       ("Oberon", fz 761, fz 583520)]
  | .Neptune => [("Triton", fz 1353, fz 354759), ("Proteus", fz 210, fz 117647)]
  | .Pluto => [("Charon", fz 606, fz 19591)]
  | _ => []

/-- Insert one moon into a list sorted by ascending semi-major axis. -/
def insertA (x : MoonDef) : List MoonDef → List MoonDef
  | [] => [x]
  | y :: ys => if Frac.blt x.2.2 y.2.2 then x :: y :: ys else y :: insertA x ys

/-- Sort a moon list by ascending semi-major axis, modelling
`sorted(moons, key=lambda x: x[2])` (the axes within one list are pairwise
distinct, so any correct ascending sort produces the same list Python does). -/
def sortA : List MoonDef → List MoonDef
  | [] => []
  | x :: xs => insertA x (sortA xs)

/-- Largest semi-major axis of a planet's moon list,
`max_a = max(m[2] for m in moons)` (axes are positive, so folding from 0 over
a nonempty list computes the Python max). -/
def max_a (p : Planet) : Frac :=
  ((MOON_DATA p).map (fun m => m.2.2)).foldl Frac.fmax (fz 0)

/-- Pixel radius of a moon, `mr = max(int(round(r_km * scale)), 2) * 3`. -/
def moon_r (rkm : Frac) : ℤ := (max (pyround (rkm * scale)) 2) * 3

/-- Saturn ring inner radius `sat_in = radius_px["Saturn"] + 10`. -/
def sat_in : ℤ := radius_px .Saturn + 10

/-- Saturn ring outer radius `sat_out = int(round(radius_px["Saturn"] * 1.5))`. -/
def sat_out : ℤ := pyround (fz (radius_px .Saturn) * ⟨3, 2⟩)

/-- Outer extent a planet's moons are placed against:
`base_outer = sat_out if planet=="Saturn" else ring_high_outer[planet]`. -/
def base_outer (p : Planet) : ℤ :=
  if p = .Saturn then sat_out else ring_high_outer p

/-- Rounded vertical offset of a moon at semi-major axis `a`:
`int(round(base_outer + 60 + (a_km / max_a) * base_outer))`. -/
def moon_offset (p : Planet) (a : Frac) : ℤ :=
  pyround (fz (base_outer p) + fz 60 + (a / max_a p) * fz (base_outer p))

/-- The y-center of the moon of sorted index `idx` and semi-major axis `a`:
`my = cyp + (-1 if idx % 2 == 0 else 1) * int(round(offset))`. -/
def moon_y (p : Planet) (idx : ℕ) (a : Frac) : ℤ :=
  centre_y + (if idx % 2 = 0 then -1 else 1) * moon_offset p a

/-- Baseline belt left bound,
`belt_left_base = centre_x_base["Mars"] + ring_high_outer_base["Mars"] + 250`. -/
def belt_left_base : ℤ := cxb_Mars + ring_high_outer_base .Mars + 250

/-- Baseline belt right bound,
`belt_right_base = centre_x_base["Jupiter"] - ring_low_outer_base["Jupiter"] - 250`. -/
def belt_right_base : ℤ := cxb_Jupiter - ring_low_outer_base .Jupiter - 250

/-- Shifted and clamped belt left bound, `max(0, belt_left_base + 300)`. -/
def belt_left : ℤ := max 0 (belt_left_base + BELT_LEFT_SHIFT)

/-- Shifted and clamped belt right bound, `min(WIDTH-1, belt_right_base + 800)`. -/
def belt_right : ℤ := min (WIDTH - 1) (belt_right_base + BELT_RIGHT_SHIFT)

/-- Dwarf body list `dwarf_defs`. -/
def dwarf_defs : List (String × Frac) :=
  [("Ceres", fz 473), ("Vesta", fz 262), ("Pallas", fz 272), ("Hygiea", fz 215)]

/-- Dwarf core radius `core_r = max(int(round(r_km * scale)), 30)`. -/
def core_r_of (rkm : Frac) : ℤ := max (pyround (rkm * scale)) 30

/-- Pop the next value from the pseudo-random stream (0 once exhausted; the
concrete streams used below are never exhausted). -/
def pop : List ℤ → ℤ × List ℤ
  | [] => (0, [])
  | v :: s => (v, s)

/-- Model of one `random.randint(a, b)` draw (the call requires `a ≤ b`): the
next stream value reduced into `[a, b]`. -/
def randint (a b v : ℤ) : ℤ := a + v % (b - a + 1)

/-- Collision test of a dwarf candidate at `(ax, ay)` with core radius `core`
against the recorded ring-inflated dwarf footprints (`dwarf_ring_extents`). -/
def dwarf_collides (ext : List (ℤ × ℤ × ℤ)) (core ax ay : ℤ) : Bool :=
  ext.any (fun e =>
    (ax - e.1) ^ 2 + (ay - e.2.1) ^ 2 <
      (core + MOON_RING_OFF + MOON_RING_THICK + e.2.2 + 2) ^ 2)

/-- The `while not placed and tries < 8000` loop for one dwarf body: draw
random candidates until one is accepted or the attempt budget is exhausted.
Returns the accepted position (if any) and the remaining stream. -/
def dwarf_try (bl br core : ℤ) (ext : List (ℤ × ℤ × ℤ)) :
    ℕ → List ℤ → Option (ℤ × ℤ) × List ℤ
  | 0, s => (none, s)
  | n + 1, s =>
    let t1 := pop s
    let t2 := pop t1.2
    let ax := randint bl br t1.1
    let ay := randint 0 (HEIGHT - 1) t2.1
    if dwarf_collides ext core ax ay then dwarf_try bl br core ext n t2.2
    else (some (ax, ay), t2.2)

/-- State threaded through the dwarf placement loop: the
`dwarf_ring_extents` list, the `asteroids` list, and the remaining random
stream. -/
structure DwarfState where
  ext : List (ℤ × ℤ × ℤ)
  asteroids : List (ℤ × ℤ × ℤ)
  stream : List ℤ
deriving DecidableEq, Repr

/-- Process one entry of `dwarf_defs`: on success record the position with
ring-inflated footprint radius `core + MOON_RING_OFF + MOON_RING_THICK` and
append `(ax, ay, core)` to the asteroid list; on exhaustion skip the dwarf. -/
def dwarf_step (bl br : ℤ) (st : DwarfState) (d : String × Frac) : DwarfState :=
  let core := core_r_of d.2
  match dwarf_try bl br core st.ext 8000 st.stream with
  | (none, s2) => ⟨st.ext, st.asteroids, s2⟩
  | (some (ax, ay), s2) =>
      ⟨st.ext ++ [(ax, ay, core + MOON_RING_OFF + MOON_RING_THICK)],
       st.asteroids ++ [(ax, ay, core)], s2⟩

/-- The dwarf-body placement phase over the whole `dwarf_defs` list. -/
def dwarf_phase (bl br : ℤ) (s : List ℤ) : DwarfState :=
  dwarf_defs.foldl (dwarf_step bl br) ⟨[], [], s⟩

/-- Result of the filler loop: either an asteroid list, or the `NameError`
raised by evaluating the unbound name `y` in the dwarf-footprint collision
check (source line `(ax - dx)**2 + (y - dy)**2 < (r + dr + 2)**2`; no
module-level binding of `y` exists). -/
inductive FillerResult where
  | done (asteroids : List (ℤ × ℤ × ℤ)) : FillerResult
  | nameError : FillerResult
deriving DecidableEq, Repr

/-- Collision test of a filler candidate against every previously placed
asteroid (`for ax2, ay2, ar2 in asteroids`). -/
def filler_collides (ast : List (ℤ × ℤ × ℤ)) (r ax ay : ℤ) : Bool :=
  ast.any (fun a => (ax - a.1) ^ 2 + (ay - a.2.1) ^ 2 < (r + a.2.2 + 2) ^ 2)

/-- The `while len(asteroids) < 200` filler loop.  The source loop is
unbounded, so an explicit fuel argument bounds the recursion here; every
claim about this loop is settled on runs that end within the provided fuel.
A candidate that survives the filler-collision check reaches the
`for dx, dy, dr in dwarf_ring_extents` loop: with a nonempty extents list its
first iteration evaluates the unbound name `y` and raises `NameError`; with
an empty extents list the candidate is accepted. -/
def filler_loop (bl br : ℤ) (ext : List (ℤ × ℤ × ℤ)) :
    ℕ → List (ℤ × ℤ × ℤ) → List ℤ → FillerResult
  | 0, ast, _ => .done ast
  | n + 1, ast, s =>
    if 200 ≤ ast.length then .done ast
    else
      let t1 := pop s
      let r := randint 8 15 t1.1
      let t2 := pop t1.2
      let ax := randint bl br t2.1
      let t3 := pop t2.2
      let ay := randint 0 (HEIGHT - 1) t3.1
      if filler_collides ast r ax ay then filler_loop bl br ext n ast t3.2
      else if ext.isEmpty then filler_loop bl br ext n (ast ++ [(ax, ay, r)]) t3.2
      else .nameError

/-- The whole belt-population pass: the dwarf phase followed by the filler
loop, at the script's belt bounds. -/
def belt_populate (s : List ℤ) : FillerResult :=
  let st := dwarf_phase belt_left belt_right s
  filler_loop belt_left belt_right st.ext 400 st.asteroids st.stream

/-- Concrete random stream under which every dwarf body is placed on its
first attempt (x-offset 0, y-offsets 0/200/400/600) and the first filler
candidate (radius offset 0, x-offset 0, y-offset 4000) collides with no
placed asteroid. -/
def s_run : List ℤ := [0, 0, 0, 200, 0, 400, 0, 600, 0, 0, 4000]

/-- Concrete random stream for the width-zero-band scenario: four dwarf
candidates at y-offsets 0/200/400/600. -/
def s_w0 : List ℤ := [0, 0, 0, 200, 0, 400, 0, 600]

/-- Canvas model: a total assignment of values to integer pixel coordinates
`(x, y)`; only `0 ≤ x < WIDTH`, `0 ≤ y < HEIGHT` is ever painted. -/
abbrev Cnv := ℤ → ℤ → ℤ

/-- Length of the Python slice `l[a:b]` of a container of length `n`: a
negative endpoint first wraps by `+ n`, then both endpoints are clamped to
`[0, n]`. -/
def pySliceLen (n a b : ℤ) : ℤ :=
  let a2 := if a < 0 then max 0 (n + a) else min a n
  let b2 := if b < 0 then max 0 (n + b) else min b n
  max 0 (b2 - a2)

/-- Membership in `draw_circle`'s boolean mask:
`(x - cx)**2 + (y - cy)**2 <= r**2`. -/
def inDisk (cx cy r x y : ℤ) : Prop := (x - cx) ^ 2 + (y - cy) ^ 2 ≤ r ^ 2

instance (cx cy r x y : ℤ) : Decidable (inDisk cx cy r x y) :=
  inferInstanceAs (Decidable (_ ≤ _))

/-- Membership in `draw_annulus`'s boolean mask:
`r_in**2 <= d2 <= r_out**2`. -/
def inAnnulus (cx cy rin rout x y : ℤ) : Prop :=
  rin ^ 2 ≤ (x - cx) ^ 2 + (y - cy) ^ 2 ∧ (x - cx) ^ 2 + (y - cy) ^ 2 ≤ rout ^ 2

instance (cx cy rin rout x y : ℤ) : Decidable (inAnnulus cx cy rin rout x y) :=
  inferInstanceAs (Decidable (_ ∧ _))

/-- Model of `draw_circle(cx, cy, r, val)`.  The function clamps the bounding
box, builds coordinate ranges `arange(x0, x1+1)` / `arange(y0, y1+1)`, and
assigns through `canvas[y0:y1+1, x0:x1+1][mask] = val`.  When a clamped
endpoint `x1 + 1` (or `y1 + 1`) is negative, the Python slice wraps around
while the `arange` is empty, the boolean mask's shape no longer matches the
sliced canvas, and numpy raises `IndexError`; `none` models that raise.
Otherwise the in-range pixels of the mask are overwritten. -/
def draw_circle (c : Cnv) (cx cy r v : ℤ) : Option Cnv :=
  let x0 := max 0 (cx - r)
  let x1 := min (WIDTH - 1) (cx + r)
  let y0 := max 0 (cy - r)
  let y1 := min (HEIGHT - 1) (cy + r)
  if pySliceLen WIDTH x0 (x1 + 1) = max 0 (x1 + 1 - x0) ∧
      pySliceLen HEIGHT y0 (y1 + 1) = max 0 (y1 + 1 - y0) then
    some (fun x y =>
      if x0 ≤ x ∧ x ≤ x1 ∧ y0 ≤ y ∧ y ≤ y1 ∧ inDisk cx cy r x y then v
      else c x y)
  else none

/-- Model of `draw_annulus(cx, cy, r_in, r_out, val)`, with the same slice
semantics as `draw_circle`. -/
def draw_annulus (c : Cnv) (cx cy rin rout v : ℤ) : Option Cnv :=
  let x0 := max 0 (cx - rout)
  let x1 := min (WIDTH - 1) (cx + rout)
  let y0 := max 0 (cy - rout)
  let y1 := min (HEIGHT - 1) (cy + rout)
  if pySliceLen WIDTH x0 (x1 + 1) = max 0 (x1 + 1 - x0) ∧
      pySliceLen HEIGHT y0 (y1 + 1) = max 0 (y1 + 1 - y0) then
    some (fun x y =>
      if x0 ≤ x ∧ x ≤ x1 ∧ y0 ≤ y ∧ y ≤ y1 ∧ inAnnulus cx cy rin rout x y then v
      else c x y)
  else none

/-- Model of `paste_disc(cx, cy, disc)` for a disc patch of side `2*r + 1`
given as a function from (row, column) offsets to values.  The source
computes source-window offsets `sy0/sy1/sx0/sx1`, clamps the canvas window,
and assigns `canvas[y0:y1, x0:x1][mask] = sub_disc[mask]` where
`mask = sub_disc > 0`; as in `draw_circle`, a shape mismatch between mask
and sliced canvas (possible only for far off-canvas centers) raises, which
`none` models. -/
def paste_disc (c : Cnv) (cx cy r : ℤ) (disc : ℤ → ℤ → ℤ) : Option Cnv :=
  let y0 := cy - r
  let y1 := cy + r + 1
  let x0 := cx - r
  let x1 := cx + r + 1
  let sy0 := max 0 (-y0)
  let sx0 := max 0 (-x0)
  let sy1 := (2 * r + 1) - max 0 (y1 - HEIGHT)
  let sx1 := (2 * r + 1) - max 0 (x1 - WIDTH)
  let cy0 := max y0 0
  let cx0 := max x0 0
  let cy1 := min y1 HEIGHT
  let cx1 := min x1 WIDTH
  if pySliceLen HEIGHT cy0 cy1 = pySliceLen (2 * r + 1) sy0 sy1 ∧
      pySliceLen WIDTH cx0 cx1 = pySliceLen (2 * r + 1) sx0 sx1 then
    some (fun x y =>
      if cy0 ≤ y ∧ y < cy1 ∧ cx0 ≤ x ∧ x < cx1 ∧
          0 < disc (sy0 + (y - cy0)) (sx0 + (x - cx0)) then
        disc (sy0 + (y - cy0)) (sx0 + (x - cx0))
      else c x y)
  else none

/-- All-zero canvas. -/
def zero_cnv : Cnv := fun _ _ => 0

/-- Constant-3 canvas used as a compositing background below. -/
def cnv3 : Cnv := fun _ _ => 3

/-- Concrete 3 x 3 patch (radius 1): value 5 at its top-left cell, zero
elsewhere. -/
def patch1 : ℤ → ℤ → ℤ := fun i j => if i = 0 ∧ j = 0 then 5 else 0

/-- Model of Python `math.atan2(y, x)`.  Only the `x ≥ 0` branches are ever
reached from `map_texture_to_disc` (there `x` is a square root), but the full
definition is given. -/
noncomputable def pyAtan2 (y x : ℝ) : ℝ :=
  if 0 < x then Real.arctan (y / x)
  else if x = 0 then
    (if 0 < y then Real.pi / 2 else if y < 0 then -(Real.pi / 2) else 0)
  else if 0 ≤ y then Real.arctan (y / x) + Real.pi
  else Real.arctan (y / x) - Real.pi

/-- Python `int()` truncation toward zero on a real. -/
noncomputable def pytrunc (x : ℝ) : ℤ := if 0 ≤ x then ⌊x⌋ else -⌊-x⌋

/-- Normalized disc offset `dx / disc_radius_px` (a real quotient). -/
noncomputable def nrm (r : ℕ) (d : ℤ) : ℝ := (d : ℝ) / (r : ℝ)

/-- Argument passed to the square root: `max(0.0, 1.0 - xx*xx - yy*yy)`. -/
noncomputable def sqrt_arg (r : ℕ) (dx dy : ℤ) : ℝ :=
  max 0 (1 - nrm r dx ^ 2 - nrm r dy ^ 2)

/-- Sphere depth `z = sqrt(max(0.0, 1.0 - xx*xx - yy*yy))`. -/
noncomputable def disc_z (r : ℕ) (dx dy : ℤ) : ℝ := Real.sqrt (sqrt_arg r dx dy)

/-- Latitude `lat = asin(yy)`. -/
noncomputable def disc_lat (r : ℕ) (dy : ℤ) : ℝ := Real.arcsin (nrm r dy)

/-- Longitude `lon = atan2(xx, z)`. -/
noncomputable def disc_lon (r : ℕ) (dx dy : ℤ) : ℝ :=
  pyAtan2 (nrm r dx) (disc_z r dx dy)

/-- Real source column `u = (lon + pi) / (2*pi) * (tw - 1)`. -/
noncomputable def tex_u (tw r : ℕ) (dx dy : ℤ) : ℝ :=
  (disc_lon r dx dy + Real.pi) / (2 * Real.pi) * ((tw : ℝ) - 1)

/-- Real source row `v = (pi/2 - lat) / pi * (th - 1)`. -/
noncomputable def tex_v (th r : ℕ) (dy : ℤ) : ℝ :=
  (Real.pi / 2 - disc_lat r dy) / Real.pi * ((th : ℝ) - 1)

/-- Integer sample column `ui = int(u)`. -/
noncomputable def sample_ui (tw r : ℕ) (dx dy : ℤ) : ℤ := pytrunc (tex_u tw r dx dy)

/-- Integer sample row `vi = int(v)`. -/
noncomputable def sample_vi (th r : ℕ) (dy : ℤ) : ℤ := pytrunc (tex_v th r dy)

/-- Value `map_texture_to_disc` stores at offset `(dx, dy)`: `0` outside the
disk (the patch is zero-initialized and the loop body is skipped), otherwise
`int(tex[vi, ui] * 65535)` where `tex : row → column → intensity` is the
normalized source image. -/
noncomputable def disc_pixel (tex : ℕ → ℕ → ℝ) (tw th r : ℕ) (dx dy : ℤ) : ℤ :=
  if r * r < dx * dx + dy * dy then 0
  else pytrunc (tex (sample_vi th r dy).toNat (sample_ui tw r dx dy).toNat * 65535)

/-- Claim-side sample column, following the spec's words: the nearest integer
to the real coordinate `u`. -/
noncomputable def sample_ui_nearest (tw r : ℕ) (dx dy : ℤ) : ℤ :=
  round (tex_u tw r dx dy)

/-- Claim-side sample row: the nearest integer to the real coordinate `v`. -/
noncomputable def sample_vi_nearest (th r : ℕ) (dy : ℤ) : ℤ :=
  round (tex_v th r dy)

/-- Claim-side patch value sampled at the nearest-integer coordinates. -/
noncomputable def disc_pixel_nearest (tex : ℕ → ℕ → ℝ) (tw th r : ℕ) (dx dy : ℤ) : ℤ :=
  if r * r < dx * dx + dy * dy then 0
  else
    pytrunc
      (tex (sample_vi_nearest th r dy).toNat (sample_ui_nearest tw r dx dy).toNat * 65535)

/-- Concrete 3-row, 6-column test texture: intensity 1 in column 4, else 0. -/
noncomputable def tex6 : ℕ → ℕ → ℝ := fun _ u => if u = 4 then 1 else 0

/-- Check that adjacent moons in a list are in strictly ascending order of
semi-major axis. -/
def ascendingA : List MoonDef → Bool
  | [] => true
  | [_] => true
  | x :: y :: ys => Frac.blt x.2.2 y.2.2 && ascendingA (y :: ys)

/-- Check that an integer list is strictly increasing. -/
def ascendingZ : List ℤ → Bool
  | [] => true
  | [_] => true
  | x :: y :: ys => decide (x < y) && ascendingZ (y :: ys)

/-- A `randint` draw lands inside the requested interval. -/
theorem randint_mem (a b v : ℤ) (h : a ≤ b) :
    a ≤ randint a b v ∧ randint a b v ≤ b := by
  unfold randint
  have hp : 0 < b - a + 1 := by omega
  have h1 := Int.emod_nonneg v (by omega : b - a + 1 ≠ 0)
  have h2 := Int.emod_lt_of_pos v hp
  omega

/-- A position accepted by `dwarf_try` has its x-coordinate inside the belt
band. -/
theorem dwarf_try_band (bl br core : ℤ) (h : bl ≤ br) :
    ∀ (n : ℕ) (ext : List (ℤ × ℤ × ℤ)) (s : List ℤ) (p : ℤ × ℤ) (s2 : List ℤ),
      dwarf_try bl br core ext n s = (some p, s2) → bl ≤ p.1 ∧ p.1 ≤ br := by
  intro n
  induction n with
  | zero =>
    intro ext s p s2 hp
    simp [dwarf_try] at hp
  | succ n ih =>
    intro ext s p s2 hp
    simp only [dwarf_try] at hp
    split at hp
    · exact ih _ _ p s2 hp
    · have hps : p = (randint bl br (pop s).1, randint 0 (HEIGHT - 1) (pop (pop s).2).1) := by
        have := congrArg Prod.fst hp
        simp at this
        exact this.symm
      rw [hps]
      exact randint_mem bl br (pop s).1 h

/-- Invariant propagation along the dwarf placement fold: any property `Q`
that holds of the initial asteroid list and of every in-band placement of
every dwarf in the list holds of all asteroids after the fold. -/
theorem dwarf_foldl_inv (bl br : ℤ) (h : bl ≤ br) (Q : ℤ × ℤ × ℤ → Prop)
    (defs : List (String × Frac))
    (hQ : ∀ d ∈ defs, ∀ x y : ℤ, bl ≤ x → x ≤ br → Q (x, y, core_r_of d.2)) :
    ∀ st : DwarfState, (∀ a ∈ st.asteroids, Q a) →
      ∀ a ∈ (defs.foldl (dwarf_step bl br) st).asteroids, Q a := by
  induction defs with
  | nil =>
    intro st hst a ha
    exact hst a ha
  | cons d ds ih =>
    intro st hst a ha
    rw [List.foldl_cons] at ha
    refine ih (fun e he => hQ e (List.mem_cons_of_mem d he)) (dwarf_step bl br st d) ?_ a ha
    intro b hb
    rcases hdt : dwarf_try bl br (core_r_of d.2) st.ext 8000 st.stream with ⟨op, s2⟩
    cases op with
    | none =>
      rw [dwarf_step, hdt] at hb
      exact hst b hb
    | some q =>
      rw [dwarf_step, hdt] at hb
      simp only [List.mem_append, List.mem_singleton] at hb
      rcases hb with hb | hb
      · exact hst b hb
      · have hband := dwarf_try_band bl br (core_r_of d.2) h 8000 st.ext st.stream q s2 hdt
        rw [hb]
        exact hQ d (List.mem_cons_self d ds) q.1 q.2 hband.1 hband.2

/-- The dwarf fold adds at most one asteroid per dwarf definition. -/
theorem dwarf_foldl_length (bl br : ℤ) (defs : List (String × Frac)) :
    ∀ st : DwarfState,
      (defs.foldl (dwarf_step bl br) st).asteroids.length ≤
        st.asteroids.length + defs.length := by
  induction defs with
  | nil =>
    intro st
    simp
  | cons d ds ih =>
    intro st
    rw [List.foldl_cons]
    refine le_trans (ih (dwarf_step bl br st d)) ?_
    rcases hdt : dwarf_try bl br (core_r_of d.2) st.ext 8000 st.stream with ⟨op, s2⟩
    cases op with
    | none =>
      rw [dwarf_step, hdt]
      simp
    | some q =>
      rw [dwarf_step, hdt]
      simp [List.length_append]
      omega

/-- C1: the filler-asteroid loop's collision check against dwarf footprints
evaluates the unbound name `y`; on the run modelled by stream `s_run` (all
four dwarf bodies placed, first filler candidate clear of them) the loop
raises `NameError` instead of performing the claimed check, so the belt
population never completes. -/
theorem c1_filler_dwarf_check_raises :
    belt_populate s_run = FillerResult.nameError := by
  decide

/-- C2 counterexample: given a belt band of width 0 (`bl = br = 100`) the
dwarf placement loop does not skip the dwarf bodies: on candidate stream
`s_w0` it terminates with all four placed in the single column. -/
theorem c2_width0_not_all_skipped :
    (dwarf_phase 100 100 s_w0).asteroids =
      [(100, 0, 30), (100, 200, 30), (100, 400, 30), (100, 600, 30)] := by
  decide

/-- C2 (amended): the derived, shifted and clamped belt bounds of this script
are `belt_left = 5531 ≤ 7231 = belt_right` (the clamp to canvas bounds does
not itself force `left ≤ right`; the concrete layout does), and the
dwarf-body placement loop given a belt band of width 0 terminates for every
candidate stream — with at most one placement per dwarf body, every placed
dwarf lying in the single band column — rather than hanging or raising;
dwarf bodies are skipped only when their 8000-attempt budget is exhausted,
which a width-0 band does not by itself cause. -/
theorem c2_belt_bounds_and_width0_termination :
    belt_left = 5531 ∧ belt_right = 7231 ∧ belt_left ≤ belt_right ∧
    (∀ s : List ℤ,
      (dwarf_phase 100 100 s).asteroids.length ≤ 4 ∧
      ∀ a ∈ (dwarf_phase 100 100 s).asteroids, a.1 = 100) := by
  refine ⟨by decide, by decide, by decide, ?_⟩
  intro s
  constructor
  · have := dwarf_foldl_length 100 100 dwarf_defs ⟨[], [], s⟩
    simpa [dwarf_phase, dwarf_defs] using this
  · intro a ha
    have := dwarf_foldl_inv 100 100 (le_refl 100) (fun b => b.1 = 100) dwarf_defs
      (fun d _ x y hx1 hx2 => by omega) ⟨[], [], s⟩ (by simp) a
    exact this (by simpa [dwarf_phase] using ha)

/-- C4: every body's derived pixel radius (base and final) is strictly
positive; every override-category (rocky) planet's final radius is exactly
three times its pre-override base radius; every moon's pixel radius is three
times its floor-clamped scale-derived radius (the 2-px floor applied before
the tripling); and concretely Mercury's base radius is
`round(2440 * 150/6371) = 57` with final (overridden) radius `171 = 3 * 57`. -/
theorem c4_radius_positive_and_tripling :
    (∀ p : Planet, 0 < radius_base p ∧ 0 < radius_px p) ∧
    (∀ p : Planet, p ∈ ROCKY → radius_px p = 3 * radius_base p) ∧
    (∀ p : Planet, ∀ m ∈ MOON_DATA p,
      0 < moon_r m.2.1 ∧ moon_r m.2.1 = 3 * max (pyround (m.2.1 * scale)) 2) ∧
    pyround (fz 2440 * scale) = 57 ∧
    radius_base .Mercury = 57 ∧ radius_px .Mercury = 3 * 57 := by
  refine ⟨by decide, by decide, ?_, by decide, by decide, by decide⟩
  intro p m hm
  cases p <;> simp only [MOON_DATA] at hm <;> fin_cases hm <;> constructor <;> decide

/-- C9: under the fixed scale 150/6371 the 30-px floor dominates each dwarf
body's scaled radius (`round(r_km * scale) < 30` for all four), so every
dwarf body's core radius is exactly 30, and — for every random stream —
every dwarf asteroid the belt phase places has pixel radius 30; the dwarf
radius computation applies no tripling override. -/
theorem c9_dwarf_radius_floor :
    (∀ d ∈ dwarf_defs, core_r_of d.2 = 30 ∧ pyround (d.2 * scale) < 30) ∧
    (∀ s : List ℤ, ∀ a ∈ (dwarf_phase belt_left belt_right s).asteroids,
      a.2.2 = 30) := by
  constructor
  · intro d hd
    fin_cases hd <;> exact ⟨by decide, by decide⟩
  · intro s a ha
    have hbl : belt_left ≤ belt_right := by decide
    have := dwarf_foldl_inv belt_left belt_right hbl (fun b => b.2.2 = 30) dwarf_defs
      (fun d hd x y _ _ => by
        show core_r_of d.2 = 30
        fin_cases hd <;> decide) ⟨[], [], s⟩ (by simp) a
    exact this (by simpa [dwarf_phase] using ha)

/-- C7: `draw_circle` with a bounding box fully off-canvas to the left (here
center (-100, 100), radius 5) does not silently clip: the numpy boolean mask
(empty) mismatches the wrapped slice and the call raises `IndexError`
(modelled by `none`), contradicting the claim; a box fully off-canvas to the
right (center (17000, 100)) is silently clipped to a no-op as claimed. -/
theorem c7_draw_circle_off_left_raises :
    (draw_circle zero_cnv (-100) 100 5 7).isNone = true ∧
    (draw_circle zero_cnv 17000 100 5 7).isSome = true ∧
    ∀ x y : ℤ, ((draw_circle zero_cnv 17000 100 5 7).getD zero_cnv) x y = 0 := by
  refine ⟨by decide, by decide, ?_⟩
  intro x y
  simp only [draw_circle, WIDTH, HEIGHT]
  rw [if_pos (by decide)]
  simp only [Option.getD_some]
  rw [if_neg]
  · rfl
  · rintro ⟨h1, h2, -⟩
    omega

/-- Every planet's final pixel radius is positive. -/
theorem radius_px_pos (p : Planet) : 0 < radius_px p := by
  revert p
  decide

/-- Every moon pixel radius is nonnegative (indeed at least 6). -/
theorem moon_r_nonneg (rkm : Frac) : 0 ≤ moon_r rkm := by
  unfold moon_r
  omega

/-- A filled disk and a concentric annulus with strictly larger inner radius
share no pixel. -/
theorem disk_annulus_disjoint (cx cy r rin rout x y : ℤ) (h0 : 0 ≤ r)
    (h1 : r < rin) :
    ¬(inDisk cx cy r x y ∧ inAnnulus cx cy rin rout x y) := by
  rintro ⟨hd, ha1, -⟩
  unfold inDisk at hd
  have h2 : rin ^ 2 ≤ r ^ 2 := le_trans ha1 hd
  nlinarith [h2, h0, h1]

/-- Inserting into a list yields a permutation of consing. -/
theorem insertA_perm (x : MoonDef) (l : List MoonDef) :
    (insertA x l).Perm (x :: l) := by
  induction l with
  | nil => exact List.Perm.refl _
  | cons y ys ih =>
    by_cases h : Frac.blt x.2.2 y.2.2
    · simp [insertA, h]
    · simp only [insertA, h, Bool.false_eq_true, if_false]
      exact (ih.cons y).trans (List.Perm.swap x y ys)

/-- The moon sort is a permutation of the moon table, so the loop processes
exactly the listed moons. -/
theorem sortA_perm (l : List MoonDef) : (sortA l).Perm l := by
  induction l with
  | nil => exact List.Perm.refl _
  | cons x xs ih => exact (insertA_perm x (sortA xs)).trans (ih.cons x)

/-- C5: for every planet, the moon list is processed as its ascending
permutation by semi-major axis; the moon of sorted index `i` sits on the
vertical axis through the parent's center (`mx = cxp` in the source), above
the center for even `i` and below for odd `i`, at the rounded offset
`base_outer + 60 + (a / max_a) * base_outer`; every moon disk lies strictly
outside the parent's outermost ring (`base_outer`), and the rounded offsets
strictly increase along the sorted list. -/
theorem c5_moon_placement :
    (∀ p : Planet, (sortA (MOON_DATA p)).Perm (MOON_DATA p)) ∧
    ∀ p : Planet,
      ascendingA (sortA (MOON_DATA p)) = true ∧
      ascendingZ ((sortA (MOON_DATA p)).map (fun m => moon_offset p m.2.2)) = true ∧
      ∀ im ∈ (sortA (MOON_DATA p)).enum,
        (im.1 % 2 = 0 →
          moon_y p im.1 im.2.2.2 = centre_y - moon_offset p im.2.2.2 ∧
          moon_y p im.1 im.2.2.2 < centre_y) ∧
        (im.1 % 2 = 1 →
          moon_y p im.1 im.2.2.2 = centre_y + moon_offset p im.2.2.2 ∧
          centre_y < moon_y p im.1 im.2.2.2) ∧
        base_outer p < moon_offset p im.2.2.2 - moon_r im.2.2.1 :=
  ⟨fun p => sortA_perm (MOON_DATA p), by decide⟩

/-- C6: every drawn ring is well formed.  For each non-Saturn planet the two
orbit-indicator annuli have inner < outer and all four radii at or above the
planet's final radius plus the minimum offset `LOW_OFF`; Saturn's single wide
annulus has `sat_in < sat_out` with both at or above its radius plus the
fixed offset 10; every moon ring has inner < outer with both at or above the
moon's radius plus `MOON_RING_OFF`; and no annulus intersects its owning
body's filled disk (stated at the bodies' drawn centers). -/
theorem c6_ring_invariants :
    (∀ p : Planet, p ≠ .Saturn →
      radius_px p + LOW_OFF < radius_px p + LOW_OFF + LOW_THICK ∧
      ring_high_inner p < ring_high_inner p + HIGH_THICK ∧
      radius_px p + LOW_OFF ≤ radius_px p + LOW_OFF ∧
      radius_px p + LOW_OFF ≤ ring_high_inner p) ∧
    (sat_in < sat_out ∧ radius_px .Saturn + 10 ≤ sat_in) ∧
    (∀ p : Planet, ∀ im ∈ (sortA (MOON_DATA p)).enum,
      moon_r im.2.2.1 + MOON_RING_OFF <
        moon_r im.2.2.1 + MOON_RING_OFF + MOON_RING_THICK ∧
      moon_r im.2.2.1 + MOON_RING_OFF ≤ moon_r im.2.2.1 + MOON_RING_OFF) ∧
    (∀ p : Planet, p ≠ .Saturn → ∀ x y : ℤ,
      ¬(inDisk (centre_x p) centre_y (radius_px p) x y ∧
        inAnnulus (centre_x p) centre_y (radius_px p + LOW_OFF)
          (radius_px p + LOW_OFF + LOW_THICK) x y)) ∧
    (∀ p : Planet, p ≠ .Saturn → ∀ x y : ℤ,
      ¬(inDisk (centre_x p) centre_y (radius_px p) x y ∧
        inAnnulus (centre_x p) centre_y (ring_high_inner p)
          (ring_high_inner p + HIGH_THICK) x y)) ∧
    (∀ x y : ℤ,
      ¬(inDisk (centre_x .Saturn) centre_y (radius_px .Saturn) x y ∧
        inAnnulus (centre_x .Saturn) centre_y sat_in sat_out x y)) ∧
    (∀ p : Planet, ∀ im ∈ (sortA (MOON_DATA p)).enum, ∀ x y : ℤ,
      ¬(inDisk (centre_x p) (moon_y p im.1 im.2.2.2) (moon_r im.2.2.1) x y ∧
        inAnnulus (centre_x p) (moon_y p im.1 im.2.2.2)
          (moon_r im.2.2.1 + MOON_RING_OFF)
          (moon_r im.2.2.1 + MOON_RING_OFF + MOON_RING_THICK) x y)) := by
  refine ⟨by decide, by decide, by decide, ?_, ?_, ?_, ?_⟩
  · intro p hp x y
    apply disk_annulus_disjoint
    · exact le_of_lt (radius_px_pos p)
    · unfold LOW_OFF
      omega
  · intro p hp x y
    apply disk_annulus_disjoint
    · exact le_of_lt (radius_px_pos p)
    · simp only [ring_high_inner, ring_low_outer, low_outer_from_r, if_neg hp,
        LOW_OFF, LOW_THICK, HIGH_GAP]
      omega
  · intro x y
    apply disk_annulus_disjoint
    · exact le_of_lt (radius_px_pos .Saturn)
    · decide
  · intro p im _ x y
    apply disk_annulus_disjoint
    · exact moon_r_nonneg im.2.2.1
    · unfold MOON_RING_OFF
      omega

/-- A Python slice with ordered in-range endpoints has the obvious length. -/
theorem pySliceLen_in_range (n a b : ℤ) (ha : 0 ≤ a) (hb : a ≤ b) (hn : b ≤ n) :
    pySliceLen n a b = b - a := by
  simp only [pySliceLen]
  split_ifs <;> omega

/-- C8: compositing a texture disc patch whose footprint lies on the canvas:
the paste succeeds, and for every canvas pixel — covered with a zero patch
value it keeps its previous value (the plain disk painted earlier is not
overwritten), covered with a positive patch value it is overwritten with the
patch value unconditionally, outside the (2r+1)-square footprint it is
unchanged. -/
theorem c8_paste_disc_compositing (c : Cnv) (disc : ℤ → ℤ → ℤ) (cx cy r : ℤ)
    (hr : 0 ≤ r) (h1 : 0 ≤ cy - r) (h2 : cy + r + 1 ≤ HEIGHT)
    (h3 : 0 ≤ cx - r) (h4 : cx + r + 1 ≤ WIDTH) :
    (paste_disc c cx cy r disc).isSome = true ∧
    ∀ x y : ℤ,
      ((cx - r ≤ x ∧ x ≤ cx + r ∧ cy - r ≤ y ∧ y ≤ cy + r) →
        disc (y - cy + r) (x - cx + r) = 0 →
        ((paste_disc c cx cy r disc).getD c) x y = c x y) ∧
      ((cx - r ≤ x ∧ x ≤ cx + r ∧ cy - r ≤ y ∧ y ≤ cy + r) →
        0 < disc (y - cy + r) (x - cx + r) →
        ((paste_disc c cx cy r disc).getD c) x y = disc (y - cy + r) (x - cx + r)) ∧
      (¬(cx - r ≤ x ∧ x ≤ cx + r ∧ cy - r ≤ y ∧ y ≤ cy + r) →
        ((paste_disc c cx cy r disc).getD c) x y = c x y) := by
  have emy : max (cy - r) 0 = cy - r := max_eq_left h1
  have emx : max (cx - r) 0 = cx - r := max_eq_left h3
  have esy : max 0 (-(cy - r)) = (0:ℤ) := max_eq_left (by omega)
  have esx : max 0 (-(cx - r)) = (0:ℤ) := max_eq_left (by omega)
  have eny : min (cy + r + 1) HEIGHT = cy + r + 1 := min_eq_left h2
  have enx : min (cx + r + 1) WIDTH = cx + r + 1 := min_eq_left h4
  have hcond : (pySliceLen HEIGHT (max (cy - r) 0) (min (cy + r + 1) HEIGHT) =
      pySliceLen (2 * r + 1) (max 0 (-(cy - r)))
        (2 * r + 1 - max 0 (cy + r + 1 - HEIGHT))) ∧
      pySliceLen WIDTH (max (cx - r) 0) (min (cx + r + 1) WIDTH) =
      pySliceLen (2 * r + 1) (max 0 (-(cx - r)))
        (2 * r + 1 - max 0 (cx + r + 1 - WIDTH)) := by
    rw [emy, eny, emx, enx, esy, esx]
    rw [show 2 * r + 1 - max 0 (cy + r + 1 - HEIGHT) = 2 * r + 1 from by
      unfold HEIGHT at h2 ⊢
      omega]
    rw [show 2 * r + 1 - max 0 (cx + r + 1 - WIDTH) = 2 * r + 1 from by
      unfold WIDTH at h4 ⊢
      omega]
    have l1 := pySliceLen_in_range HEIGHT (cy - r) (cy + r + 1) h1 (by omega) h2
    have l2 := pySliceLen_in_range WIDTH (cx - r) (cx + r + 1) h3 (by omega) h4
    have l3 := pySliceLen_in_range (2 * r + 1) 0 (2 * r + 1) (le_refl 0)
      (by omega) (le_refl _)
    omega
  have eiy : ∀ y : ℤ, 0 + (y - (cy - r)) = y - cy + r := fun y => by ring
  have eix : ∀ x : ℤ, 0 + (x - (cx - r)) = x - cx + r := fun x => by ring
  constructor
  · simp only [paste_disc]
    rw [if_pos hcond]
    rfl
  · intro x y
    refine ⟨?_, ?_, ?_⟩
    · rintro ⟨hx1, hx2, hy1, hy2⟩ hz
      simp only [paste_disc]
      rw [if_pos hcond]
      simp only [Option.getD_some, emy, emx, esy, esx, eny, enx, eiy, eix]
      rw [if_neg]
      rintro ⟨-, -, -, -, h5⟩
      omega
    · rintro ⟨hx1, hx2, hy1, hy2⟩ hpos
      simp only [paste_disc]
      rw [if_pos hcond]
      simp only [Option.getD_some, emy, emx, esy, esx, eny, enx, eiy, eix]
      rw [if_pos ⟨by omega, by omega, by omega, by omega, hpos⟩]
    · intro hn
      simp only [paste_disc]
      rw [if_pos hcond]
      simp only [Option.getD_some, emy, emx, esy, esx, eny, enx, eiy, eix]
      rw [if_neg]
      rintro ⟨ha, hb, hc2, hd, -⟩
      exact hn ⟨by omega, by omega, by omega, by omega⟩

/-- C8 witness: pasting the concrete radius-1 patch `patch1` onto the
constant-3 canvas at center (100, 100): the covered pixel (99, 99) (patch
value 5) is overwritten with 5, the covered pixel (100, 99) (patch value 0)
keeps value 3, and the uncovered pixel (0, 0) keeps value 3. -/
theorem c8_paste_disc_compositing_witness :
    ((paste_disc cnv3 100 100 1 patch1).getD cnv3) 99 99 = 5 ∧
    ((paste_disc cnv3 100 100 1 patch1).getD cnv3) 100 99 = 3 ∧
    ((paste_disc cnv3 100 100 1 patch1).getD cnv3) 0 0 = 3 := by
  have h := c8_paste_disc_compositing cnv3 patch1 100 100 1 (by norm_num)
    (by norm_num) (by decide) (by norm_num) (by decide)
  refine ⟨?_, ?_, ?_⟩
  · have h2 := ((h.2 99 99).2.1) (by norm_num) (by decide)
    norm_num [patch1] at h2
    exact h2
  · have h2 := ((h.2 100 99).1) (by norm_num) (by decide)
    norm_num [cnv3] at h2
    exact h2
  · have h2 := ((h.2 0 0).2.2) (by norm_num)
    norm_num [cnv3] at h2
    exact h2

/-- Python `atan2(y, x)` with nonnegative `x` yields a value in
[-pi/2, pi/2]. -/
theorem pyAtan2_mem (y x : ℝ) (hx : 0 ≤ x) :
    -(Real.pi / 2) ≤ pyAtan2 y x ∧ pyAtan2 y x ≤ Real.pi / 2 := by
  have hpi := Real.pi_pos
  by_cases h1 : 0 < x
  · simp only [pyAtan2, if_pos h1]
    exact ⟨le_of_lt (Real.neg_pi_div_two_lt_arctan _),
      le_of_lt (Real.arctan_lt_pi_div_two _)⟩
  · have hx0 : x = 0 := le_antisymm (not_lt.mp h1) hx
    simp only [pyAtan2, if_neg h1, if_pos hx0]
    by_cases h2 : 0 < y
    · rw [if_pos h2]
      constructor <;> linarith
    · rw [if_neg h2]
      by_cases h3 : y < 0
      · rw [if_pos h3]
        constructor <;> linarith
      · rw [if_neg h3]
        constructor <;> linarith

/-- The longitude computed by the projector lies in [-pi/2, pi/2]: its
`atan2` second argument is a square root, hence nonnegative. -/
theorem disc_lon_mem (r : ℕ) (dx dy : ℤ) :
    -(Real.pi / 2) ≤ disc_lon r dx dy ∧ disc_lon r dx dy ≤ Real.pi / 2 :=
  pyAtan2_mem _ _ (Real.sqrt_nonneg _)

/-- The latitude computed by the projector lies in [-pi/2, pi/2]. -/
theorem disc_lat_mem (r : ℕ) (dy : ℤ) :
    -(Real.pi / 2) ≤ disc_lat r dy ∧ disc_lat r dy ≤ Real.pi / 2 :=
  ⟨Real.neg_pi_div_two_le_arcsin _, Real.arcsin_le_pi_div_two _⟩

/-- The real source column `u` lies in [0, tw - 1] for a source of width at
least 1. -/
theorem tex_u_bounds (tw r : ℕ) (dx dy : ℤ) (htw : 1 ≤ tw) :
    0 ≤ tex_u tw r dx dy ∧ tex_u tw r dx dy ≤ (tw : ℝ) - 1 := by
  have hpi := Real.pi_pos
  have hlon := disc_lon_mem r dx dy
  have htw1 : (1 : ℝ) ≤ (tw : ℝ) := by exact_mod_cast htw
  have hfrac0 : 0 ≤ (disc_lon r dx dy + Real.pi) / (2 * Real.pi) :=
    div_nonneg (by linarith [hlon.1]) (by linarith)
  have hfrac1 : (disc_lon r dx dy + Real.pi) / (2 * Real.pi) ≤ 1 :=
    (div_le_one (by linarith)).mpr (by linarith [hlon.2])
  constructor
  · exact mul_nonneg hfrac0 (by linarith)
  · calc (disc_lon r dx dy + Real.pi) / (2 * Real.pi) * ((tw : ℝ) - 1) ≤
        1 * ((tw : ℝ) - 1) :=
          mul_le_mul_of_nonneg_right hfrac1 (by linarith)
    _ = (tw : ℝ) - 1 := one_mul _

/-- The real source row `v` lies in [0, th - 1] for a source of height at
least 1. -/
theorem tex_v_bounds (th r : ℕ) (dy : ℤ) (hth : 1 ≤ th) :
    0 ≤ tex_v th r dy ∧ tex_v th r dy ≤ (th : ℝ) - 1 := by
  have hpi := Real.pi_pos
  have hlat := disc_lat_mem r dy
  have hth1 : (1 : ℝ) ≤ (th : ℝ) := by exact_mod_cast hth
  have hfrac0 : 0 ≤ (Real.pi / 2 - disc_lat r dy) / Real.pi :=
    div_nonneg (by linarith [hlat.2]) (by linarith)
  have hfrac1 : (Real.pi / 2 - disc_lat r dy) / Real.pi ≤ 1 :=
    (div_le_one (by linarith)).mpr (by linarith [hlat.1])
  constructor
  · exact mul_nonneg hfrac0 (by linarith)
  · calc (Real.pi / 2 - disc_lat r dy) / Real.pi * ((th : ℝ) - 1) ≤
        1 * ((th : ℝ) - 1) :=
          mul_le_mul_of_nonneg_right hfrac1 (by linarith)
    _ = (th : ℝ) - 1 := one_mul _

/-- Python truncation of a nonnegative real is the floor. -/
theorem pytrunc_eq_floor (x : ℝ) (hx : 0 ≤ x) : pytrunc x = ⌊x⌋ := if_pos hx

/-- The floor of a real bounded in [0, n - 1] gives an integer index bounded
by n - 1. -/
theorem floor_index_bounds (n : ℕ) (u : ℝ) (h0 : 0 ≤ u) (h1 : u ≤ (n : ℝ) - 1) :
    0 ≤ ⌊u⌋ ∧ ⌊u⌋ ≤ (n : ℤ) - 1 := by
  constructor
  · exact Int.le_floor.mpr (by exact_mod_cast h0)
  · have h2 : ⌊u⌋ ≤ ⌊(((n : ℤ) - 1 : ℤ) : ℝ)⌋ :=
      Int.floor_le_floor (by push_cast; linarith)
    rwa [Int.floor_intCast] at h2

/-- C10: for an in-disk offset of a positive-radius disc and a source image
of width and height at least 1, the square-root argument is clamped
nonnegative, the longitude lies in [-pi/2, pi/2] (the depth `z` is
nonnegative), the latitude lies in [-pi/2, pi/2], and the integer sample
indices satisfy `0 ≤ ui ≤ tw - 1` and `0 ≤ vi ≤ th - 1`, so the source read
`tex[vi, ui]` is always in bounds. -/
theorem c10_sample_indices_in_bounds (tw th r : ℕ) (dx dy : ℤ)
    (htw : 1 ≤ tw) (hth : 1 ≤ th) (hr : 0 < r)
    (hin : dx * dx + dy * dy ≤ (r : ℤ) * (r : ℤ)) :
    0 ≤ sqrt_arg r dx dy ∧
    (-(Real.pi / 2) ≤ disc_lon r dx dy ∧ disc_lon r dx dy ≤ Real.pi / 2) ∧
    (-(Real.pi / 2) ≤ disc_lat r dy ∧ disc_lat r dy ≤ Real.pi / 2) ∧
    (0 ≤ sample_ui tw r dx dy ∧ sample_ui tw r dx dy ≤ (tw : ℤ) - 1) ∧
    (0 ≤ sample_vi th r dy ∧ sample_vi th r dy ≤ (th : ℤ) - 1) := by
  have hu := tex_u_bounds tw r dx dy htw
  have hv := tex_v_bounds th r dy hth
  refine ⟨le_max_left 0 _, disc_lon_mem r dx dy, disc_lat_mem r dy, ?_, ?_⟩
  · rw [sample_ui, pytrunc_eq_floor _ hu.1]
    exact floor_index_bounds tw _ hu.1 hu.2
  · rw [sample_vi, pytrunc_eq_floor _ hv.1]
    exact floor_index_bounds th _ hv.1 hv.2

/-- C10 witness: the center pixel of a radius-1 disc with a 1 x 1 source
satisfies the hypotheses, and both sample indices land in [0, 0]. -/
theorem c10_sample_indices_in_bounds_witness :
    (1 ≤ 1 ∧ 1 ≤ 1 ∧ 0 < 1 ∧ (0 : ℤ) * 0 + 0 * 0 ≤ ((1 : ℕ) : ℤ) * ((1 : ℕ) : ℤ)) ∧
    (0 ≤ sample_ui 1 1 0 0 ∧ sample_ui 1 1 0 0 ≤ ((1 : ℕ) : ℤ) - 1) ∧
    (0 ≤ sample_vi 1 1 0 ∧ sample_vi 1 1 0 ≤ ((1 : ℕ) : ℤ) - 1) := by
  have h := c10_sample_indices_in_bounds 1 1 1 0 0 (le_refl 1) (le_refl 1)
    Nat.one_pos (by norm_num)
  exact ⟨⟨le_refl 1, le_refl 1, Nat.one_pos, by norm_num⟩, h.2.2.2.1, h.2.2.2.2⟩

/-- At the rightmost in-disk pixel of a radius-1 disc the depth `z` is 0. -/
theorem disc_z_110 : disc_z 1 1 0 = 0 := by
  unfold disc_z sqrt_arg nrm
  norm_num

/-- At that pixel the longitude is pi/2 (`atan2(1, 0)`). -/
theorem disc_lon_110 : disc_lon 1 1 0 = Real.pi / 2 := by
  unfold disc_lon
  rw [disc_z_110]
  have hnrm : nrm 1 1 = 1 := by
    unfold nrm
    norm_num
  rw [hnrm]
  unfold pyAtan2
  rw [if_neg (lt_irrefl (0 : ℝ)), if_pos rfl, if_pos (by norm_num : (0:ℝ) < 1)]

/-- At that pixel, with source width 6, the real column is u = 3.75. -/
theorem tex_u_61 : tex_u 6 1 1 0 = 15 / 4 := by
  unfold tex_u
  rw [disc_lon_110]
  have hpi := Real.pi_ne_zero
  push_cast
  field_simp
  ring

/-- At that pixel, with source height 3, the real row is v = 1. -/
theorem tex_v_31 : tex_v 3 1 0 = 1 := by
  unfold tex_v disc_lat nrm
  norm_num [Real.arcsin_zero]
  have hpi := Real.pi_ne_zero
  field_simp
  ring

/-- C3 counterexample: at disk radius 1, source 6 wide and 3 high, in-disk
offset (1, 0), the real column is u = 3.75: the code samples column
`int(u) = 3` while the nearest integer is 4.  On the texture `tex6` (white
only in column 4) the code writes 0 where nearest-neighbor rounding writes
65535, so the written intensity is not the source sampled at the nearest
integer coordinates. -/
theorem c3_trunc_differs_from_nearest :
    sample_ui 6 1 1 0 = 3 ∧ sample_ui_nearest 6 1 1 0 = 4 ∧
    sample_vi 3 1 0 = 1 ∧ sample_vi_nearest 3 1 0 = 1 ∧
    disc_pixel tex6 6 3 1 1 0 = 0 ∧ disc_pixel_nearest tex6 6 3 1 1 0 = 65535 ∧
    disc_pixel tex6 6 3 1 1 0 ≠ disc_pixel_nearest tex6 6 3 1 1 0 := by
  have hui : sample_ui 6 1 1 0 = 3 := by
    unfold sample_ui
    rw [tex_u_61]
    unfold pytrunc
    rw [if_pos (by norm_num : (0:ℝ) ≤ 15 / 4)]
    norm_num
  have huin : sample_ui_nearest 6 1 1 0 = 4 := by
    unfold sample_ui_nearest
    rw [tex_u_61]
    norm_num [round_eq]
  have hvi : sample_vi 3 1 0 = 1 := by
    unfold sample_vi
    rw [tex_v_31]
    unfold pytrunc
    rw [if_pos (by norm_num : (0:ℝ) ≤ 1)]
    norm_num
  have hvin : sample_vi_nearest 3 1 0 = 1 := by
    unfold sample_vi_nearest
    rw [tex_v_31]
    norm_num [round_eq]
  have hp : disc_pixel tex6 6 3 1 1 0 = 0 := by
    unfold disc_pixel
    rw [if_neg (by norm_num), hvi, hui]
    norm_num [tex6, pytrunc, show Int.toNat 3 = 3 from rfl]
  have hpn : disc_pixel_nearest tex6 6 3 1 1 0 = 65535 := by
    unfold disc_pixel_nearest
    rw [if_neg (by norm_num), hvin, huin]
    norm_num [tex6, pytrunc, show Int.toNat 4 = 4 from rfl]
  refine ⟨hui, huin, hvi, hvin, hp, hpn, ?_⟩
  rw [hp, hpn]
  norm_num

/-- C3 (amended): for every in-disk pixel offset with source width and height
at least 1, the sample indices are the floors of the real coordinates u and v
(Python `int()` truncates, and u, v are nonnegative — not the nearest
integers), and the written intensity is `int(tex[vi, ui] * 65535)` at those
floor indices. -/
theorem c3_floor_sampling (tex : ℕ → ℕ → ℝ) (tw th r : ℕ) (dx dy : ℤ)
    (htw : 1 ≤ tw) (hth : 1 ≤ th)
    (hin : dx * dx + dy * dy ≤ (r : ℤ) * (r : ℤ)) :
    sample_ui tw r dx dy = ⌊tex_u tw r dx dy⌋ ∧
    sample_vi th r dy = ⌊tex_v th r dy⌋ ∧
    0 ≤ tex_u tw r dx dy ∧ 0 ≤ tex_v th r dy ∧
    disc_pixel tex tw th r dx dy =
      pytrunc (tex (⌊tex_v th r dy⌋).toNat (⌊tex_u tw r dx dy⌋).toNat * 65535) := by
  have hu := tex_u_bounds tw r dx dy htw
  have hv := tex_v_bounds th r dy hth
  refine ⟨pytrunc_eq_floor _ hu.1, pytrunc_eq_floor _ hv.1, hu.1, hv.1, ?_⟩
  unfold disc_pixel
  rw [if_neg (not_lt.mpr hin)]
  unfold sample_ui sample_vi
  rw [pytrunc_eq_floor _ hu.1, pytrunc_eq_floor _ hv.1]

/-- C3 witness: the amended statement applied at source 6 x 3, radius 1,
offset (1, 0), texture `tex6`. -/
theorem c3_floor_sampling_witness :
    (1 ≤ 6 ∧ 1 ≤ 3 ∧ (1 : ℤ) * 1 + 0 * 0 ≤ ((1 : ℕ) : ℤ) * ((1 : ℕ) : ℤ)) ∧
    sample_ui 6 1 1 0 = ⌊tex_u 6 1 1 0⌋ ∧
    disc_pixel tex6 6 3 1 1 0 =
      pytrunc (tex6 (⌊tex_v 3 1 0⌋).toNat (⌊tex_u 6 1 1 0⌋).toNat * 65535) := by
  have h := c3_floor_sampling tex6 6 3 1 1 0 (by norm_num) (by norm_num) (by norm_num)
  exact ⟨⟨by norm_num, by norm_num, by norm_num⟩, h.1, h.2.2.2.2⟩

end SolarMap
